import Mathlib

/-!
Shallow embedding of `src/libidle.c` (funkwerk-mobility/libidle), a
process-wide quiescence detector that interposes synchronization
primitives and publishes an idle counter to a locked state file.

Modelling choices:
* Pointer identities (`sem_t *`, `pthread_cond_t *`, `pthread_t`) become
  natural numbers; `NULL` is represented through `Option`.
* C `int` counters (`pending_wakeups`, `sleeping_threads`, `times_idle`)
  become `Int` (they are small; no overflow semantics are relied upon).
* Every registry mutation in the C source happens inside a critical
  section of the recursive coordinator mutex, so a run of the program is a
  sequence of atomic critical sections.  Each such section is a state
  transformer `LibIdleState → Option LibIdleState`, where `none` models an
  assertion failure (abort).
* The state file is modelled by `written`, the list of values written so
  far (each write rewinds and truncates first, so every element is the
  full file content after one idle transition), plus the advisory-lock
  flag `locked`.
-/

/-- Identity of a semaphore / condition variable (its stable address). -/
abbrev Addr := Nat

/-- Identity of a thread (`pthread_t`). -/
abbrev Tid := Nat

/-- `SemaphoreInfo` from the C source. -/
structure SemaphoreInfo where
  sem : Addr
  named_semaphore : Bool
  pending_wakeups : Int
deriving DecidableEq, Repr

/-- `ConditionInfo` from the C source: a condition variable reimplemented
on top of two semaphores IN and OUT. -/
structure ConditionInfo where
  cond : Addr
  sem_in : Addr
  sem_out : Addr
  sleeping_threads : Int
deriving DecidableEq, Repr

/-- `ThreadInfo` from the C source. -/
structure ThreadInfo where
  id : Tid
  sleeping : Bool
  forced_idle : Bool
  waiting_semaphore : Option Addr
deriving DecidableEq, Repr

/-- The global `state` struct (registry + state-file gate).  The
coordinator mutex and the file descriptor itself are not represented; the
file is represented by the history of values written to it. -/
structure LibIdleState where
  locked : Bool
  times_idle : Int
  written : List Int
  sem_info : List SemaphoreInfo
  cond_info : List ConditionInfo
  thr_info : List ThreadInfo
deriving DecidableEq, Repr

/-- `libidle_find_sem_info`: linear scan, first record with this address. -/
def libidle_find_sem_info (sems : List SemaphoreInfo) (sem : Addr) : Option SemaphoreInfo :=
  sems.find? (fun si => si.sem == sem)

/-- `libidle_find_cond_info`. -/
def libidle_find_cond_info (conds : List ConditionInfo) (cond : Addr) : Option ConditionInfo :=
  conds.find? (fun ci => ci.cond == cond)

/-- `libidle_find_thr_info` / `find_thread_info`. -/
def libidle_find_thr_info (thrs : List ThreadInfo) (id : Tid) : Option ThreadInfo :=
  thrs.find? (fun ti => ti.id == id)

/-- `threadinfo_is_blocked`.  In the C source the final lookup result is
dereferenced unconditionally; the `none` branch corresponds to a null
dereference, unreachable when the registry is well-formed (every waiting
link resolves). -/
def threadinfo_is_blocked (sems : List SemaphoreInfo) (t : ThreadInfo) : Bool :=
  if t.forced_idle then true
  else if !t.sleeping then false
  else
    match t.waiting_semaphore with
    | none => true
    | some w =>
      match libidle_find_sem_info sems w with
      | some si => if si.pending_wakeups > 0 then false else true
      | none => true

/-- `num_active_threads`: recomputed from scratch over the thread table. -/
def num_active_threads (s : LibIdleState) : Nat :=
  (s.thr_info.filter (fun t => !threadinfo_is_blocked s.sem_info t)).length

/-- `libidle_lock` (the busy transition): asserts `!locked`, acquires the
advisory file lock, sets `locked`. -/
def libidle_lock (s : LibIdleState) : Option LibIdleState :=
  if s.locked then none
  else some { s with locked := true }

/-- `libidle_unlock` (the idle transition): asserts `locked`, rewinds and
truncates the state file, writes `++times_idle` and a newline, releases
the lock. -/
def libidle_unlock (s : LibIdleState) : Option LibIdleState :=
  if s.locked then
    some { s with
      times_idle := s.times_idle + 1,
      written := s.written ++ [s.times_idle + 1],
      locked := false }
  else none

/-- `maybe_lock`. -/
def maybe_lock (s : LibIdleState) : Option LibIdleState :=
  if s.locked = false ∧ 0 < num_active_threads s then libidle_lock s else some s

/-- `maybe_unlock`. -/
def maybe_unlock (s : LibIdleState) : Option LibIdleState :=
  if s.locked = true ∧ num_active_threads s = 0 then libidle_unlock s else some s

/-- Update the first thread record with this id (the C code mutates the
record returned by the linear scan). -/
def set_thr (thrs : List ThreadInfo) (id : Tid) (f : ThreadInfo → ThreadInfo) :
    List ThreadInfo :=
  match thrs with
  | [] => []
  | t :: ts => if t.id == id then f t :: ts else t :: set_thr ts id f

/-- Update the first semaphore record with this address. -/
def set_sem (sems : List SemaphoreInfo) (sem : Addr) (f : SemaphoreInfo → SemaphoreInfo) :
    List SemaphoreInfo :=
  match sems with
  | [] => []
  | si :: rest => if si.sem == sem then f si :: rest else si :: set_sem rest sem f

/-- Update the first condition record with this address. -/
def set_cond (conds : List ConditionInfo) (cond : Addr) (f : ConditionInfo → ConditionInfo) :
    List ConditionInfo :=
  match conds with
  | [] => []
  | ci :: rest => if ci.cond == cond then f ci :: rest else ci :: set_cond rest cond f

/-- `libidle_register_thread`. -/
def libidle_register_thread (s : LibIdleState) (thread : Tid) : LibIdleState :=
  { s with thr_info := s.thr_info ++ [⟨thread, false, false, none⟩] }

/-- `libidle_init`: fresh state file (truncated on open), the initial
thread registered, then `libidle_lock` — the process starts busy. -/
def libidle_init (mainTid : Tid) : LibIdleState :=
  { locked := true, times_idle := 0, written := [],
    sem_info := [], cond_info := [], thr_info := [⟨mainTid, false, false, none⟩] }

/-- `entering_blocked_op`, for calling thread `tid`.  A missing thread
record is tolerated (`if (thr_info)` in the source — no assertion). -/
def entering_blocked_op (tid : Tid) (s : LibIdleState) : Option LibIdleState :=
  match libidle_find_thr_info s.thr_info tid with
  | some _ =>
      maybe_unlock { s with thr_info := set_thr s.thr_info tid (fun t => { t with sleeping := true }) }
  | none => maybe_unlock s

/-- `left_blocked_op`, for calling thread `tid`. -/
def left_blocked_op (tid : Tid) (s : LibIdleState) : Option LibIdleState :=
  match libidle_find_thr_info s.thr_info tid with
  | some _ =>
      maybe_lock { s with thr_info := set_thr s.thr_info tid (fun t => { t with sleeping := false }) }
  | none => maybe_lock s

/-- `libidle_enable_forced_idle`: asserts the calling thread is
registered. -/
def libidle_enable_forced_idle (tid : Tid) (s : LibIdleState) : Option LibIdleState :=
  match libidle_find_thr_info s.thr_info tid with
  | some _ =>
      maybe_unlock { s with thr_info := set_thr s.thr_info tid (fun t => { t with forced_idle := true }) }
  | none => none

/-- `libidle_disable_forced_idle`. -/
def libidle_disable_forced_idle (tid : Tid) (s : LibIdleState) : Option LibIdleState :=
  match libidle_find_thr_info s.thr_info tid with
  | some _ =>
      maybe_lock { s with thr_info := set_thr s.thr_info tid (fun t => { t with forced_idle := false }) }
  | none => none

/-- Add `d` to `pending_wakeups` of the first semaphore record with this
address. -/
def bump_sem (sems : List SemaphoreInfo) (sem : Addr) (d : Int) : List SemaphoreInfo :=
  set_sem sems sem (fun si => { si with pending_wakeups := si.pending_wakeups + d })

/-- The C swap-remove idiom: overwrite the first matching entry with the
last entry, then shrink the table by one. -/
def swap_remove_sem (sems : List SemaphoreInfo) (sem : Addr) : List SemaphoreInfo :=
  match sems.findIdx? (fun si => si.sem == sem) with
  | none => sems
  | some i => (sems.set i (sems.getLastD ⟨0, false, 0⟩)).dropLast

/-- Swap-remove for condition records. -/
def swap_remove_cond (conds : List ConditionInfo) (cond : Addr) : List ConditionInfo :=
  match conds.findIdx? (fun ci => ci.cond == cond) with
  | none => conds
  | some i => (conds.set i (conds.getLastD ⟨0, 0, 0, 0⟩)).dropLast

/-- The `sem_open` wrapper.  `under` is the result of the real underlying
`sem_open`; `none` models `SEM_FAILED`.  The first component of the result
is the pointer value the wrapper returns to the caller, with `some a` the
address `a` (the C source returns the literal `0`, i.e. a null pointer, on
the success path — not the handle it just registered). -/
def sem_open (under : Option Addr) (s : LibIdleState) : Option Addr × LibIdleState :=
  match under with
  | none => (none, s)
  | some ret =>
      (some 0,
       { s with sem_info := s.sem_info ++ [{ sem := ret, named_semaphore := true, pending_wakeups := 0 }] })

/-- The `sem_init` wrapper, success path of the underlying init: register
an anonymous record with `pending_wakeups = value`. -/
def sem_init (sem : Addr) (value : Nat) (s : LibIdleState) : LibIdleState :=
  { s with sem_info := s.sem_info ++ [{ sem := sem, named_semaphore := false, pending_wakeups := (value : Int) }] }

/-- The `sem_destroy` wrapper: swap-remove the record (a missing record is
tolerated), then call through; `under` is the underlying result, which is
returned unchanged. -/
def sem_destroy (under : Int) (sem : Addr) (s : LibIdleState) : Int × LibIdleState :=
  (under, { s with sem_info := swap_remove_sem s.sem_info sem })

/-- The `sem_post` wrapper: assert the record exists, increment
`pending_wakeups` before calling through. -/
def sem_post (sem : Addr) (s : LibIdleState) : Option LibIdleState :=
  match libidle_find_sem_info s.sem_info sem with
  | none => none
  | some _ => some { s with sem_info := bump_sem s.sem_info sem 1 }

/-- `libidle_sem_wait` (shared by `sem_wait` and `sem_timedwait`; the two
differ only in which underlying primitive runs between the two halves) up
to the call into the real wait: assert the semaphore and the calling
thread are registered; for an anonymous semaphore, link
`waiting_semaphore` in one critical section, then run
`entering_blocked_op` in a second one. -/
def libidle_sem_wait_pre (tid : Tid) (sem : Addr) (s : LibIdleState) : Option LibIdleState :=
  match libidle_find_sem_info s.sem_info sem with
  | none => none
  | some sem_rec =>
    match libidle_find_thr_info s.thr_info tid with
    | none => none
    | some _ =>
      if sem_rec.named_semaphore then some s
      else
        entering_blocked_op tid
          { s with thr_info := set_thr s.thr_info tid (fun t => { t with waiting_semaphore := some sem }) }

/-- `libidle_sem_wait` after the real wait returns.  `named` is the flag
read from the record captured in the first half.  For an anonymous
semaphore, one critical section: `left_blocked_op` (clear `sleeping`, then
`maybe_lock`), then clear `waiting_semaphore`, then decrement
`pending_wakeups`. -/
def libidle_sem_wait_post (tid : Tid) (sem : Addr) (named : Bool) (s : LibIdleState) :
    Option LibIdleState :=
  if named then some s
  else
    match left_blocked_op tid s with
    | none => none
    | some s1 =>
      some { s1 with
        thr_info := set_thr s1.thr_info tid (fun t => { t with waiting_semaphore := none }),
        sem_info := bump_sem s1.sem_info sem (-1) }

/-- A whole `sem_wait`/`sem_timedwait` call with no interleaved critical
sections of other threads: the first half followed by the second half,
with the `named` flag captured from the record found by the first half. -/
def libidle_sem_wait_full (tid : Tid) (sem : Addr) (s : LibIdleState) : Option LibIdleState :=
  match libidle_find_sem_info s.sem_info sem with
  | none => none
  | some sem_rec =>
    match libidle_sem_wait_pre tid sem s with
    | none => none
    | some s1 => libidle_sem_wait_post tid sem sem_rec.named_semaphore s1

/-- `pthread_cond_init_232`: append a condition record carrying the two
fresh semaphore addresses, then initialize IN and OUT through our own
`sem_init` wrapper (registering them with `pending_wakeups = 0`). -/
def pthread_cond_init_232 (cond newIn newOut : Addr) (s : LibIdleState) : LibIdleState :=
  sem_init newOut 0 (sem_init newIn 0
    { s with cond_info := s.cond_info ++ [⟨cond, newIn, newOut, 0⟩] })

/-- `pthread_cond_destroy_232`: a missing record is tolerated; a present
record asserts `sleeping_threads == 0`, destroys IN and OUT through the
`sem_destroy` wrapper, swap-removes the record, and calls through,
returning the underlying result `under`. -/
def pthread_cond_destroy_232 (under : Int) (cond : Addr) (s : LibIdleState) :
    Option (Int × LibIdleState) :=
  match libidle_find_cond_info s.cond_info cond with
  | none => some (under, s)
  | some ci =>
    if ci.sleeping_threads = 0 then
      some (under,
        { s with
          sem_info := swap_remove_sem (swap_remove_sem s.sem_info ci.sem_in) ci.sem_out,
          cond_info := swap_remove_cond s.cond_info cond })
    else none

/-- The critical section of `pthread_cond_wait_232` before the inner
`sem_wait` on the captured IN: locate the record — its assert is commented
out in the source, so a missing record is a null dereference (`none`
here) — and increment `sleeping_threads`.  The result also carries the
captured IN and OUT addresses. -/
def pthread_cond_wait_enter (cond : Addr) (s : LibIdleState) :
    Option (LibIdleState × Addr × Addr) :=
  match libidle_find_cond_info s.cond_info cond with
  | none => none
  | some ci =>
    some ({ s with cond_info := (set_cond s.cond_info cond
              (fun c => { c with sleeping_threads := c.sleeping_threads + 1 })) },
          ci.sem_in, ci.sem_out)

/-- The critical section of `pthread_cond_broadcast` (its rotation):
assert the condition record and the calling thread's record exist; capture
IN, OUT and `sleeping_threads`; install the fresh addresses; register the
fresh semaphores through the `sem_init` wrapper; reset `sleeping_threads`.
Returns the rotated state and the captured `(oldIn, oldOut, n)`. -/
def pthread_cond_broadcast_rotate (tid : Tid) (cond newIn newOut : Addr) (s : LibIdleState) :
    Option (LibIdleState × Addr × Addr × Int) :=
  match libidle_find_cond_info s.cond_info cond with
  | none => none
  | some ci =>
    match libidle_find_thr_info s.thr_info tid with
    | none => none
    | some _ =>
      let s1 := { s with cond_info := (set_cond s.cond_info cond
                    (fun c => { c with sem_in := newIn, sem_out := newOut })) }
      let s2 := sem_init newOut 0 (sem_init newIn 0 s1)
      let s3 := { s2 with cond_info := (set_cond s2.cond_info cond
                    (fun c => { c with sleeping_threads := 0 })) }
      some (s3, ci.sem_in, ci.sem_out, ci.sleeping_threads)

/-- The semaphore operations a broadcast performs after its rotation,
outside the coordinator lock. -/
inductive CondAction where
  | post (sem : Addr)
  | wait (sem : Addr)
  | destroyAct (sem : Addr)
deriving DecidableEq, Repr

/-- The sequence of operations the tail of `pthread_cond_broadcast`
performs on the detached pair: `were_sleeping` posts on the old IN, then
`were_sleeping` waits on the old OUT, then destroy both (the C loops run
`max n 0` times for an `int` bound `n`). -/
def pthread_cond_broadcast_actions (oldIn oldOut : Addr) (n : Int) : List CondAction :=
  List.replicate n.toNat (CondAction.post oldIn)
    ++ List.replicate n.toNat (CondAction.wait oldOut)
    ++ [CondAction.destroyAct oldIn, CondAction.destroyAct oldOut]

/-- One atomic critical section of the coordinator mutex, as performed by
the interposed operations.  A run of the instrumented program is a list of
these. -/
inductive Op where
  | enterBlocked (tid : Tid)
  | leaveBlocked (tid : Tid)
  | enableForcedIdle (tid : Tid)
  | disableForcedIdle (tid : Tid)
  | threadCreate (tid : Tid)
  | semOpen (handle : Addr)
  | semInit (sem : Addr) (value : Nat)
  | semDestroy (sem : Addr)
  | semPost (sem : Addr)
  | semWaitEnter (tid : Tid) (sem : Addr)
  | semWaitReturn (tid : Tid) (sem : Addr) (named : Bool)
  | condInit (cond newIn newOut : Addr)
  | condDestroy (cond : Addr)
  | condWaitEnter (cond : Addr)
  | condBroadcastRotate (tid : Tid) (cond newIn newOut : Addr)
deriving DecidableEq, Repr

/-- The registry/gate effect of one critical section; `none` is an
assertion failure (or, for `condWaitEnter` on a missing record, the null
dereference the commented-out assert would have caught). -/
def applyOp (op : Op) (s : LibIdleState) : Option LibIdleState :=
  match op with
  | .enterBlocked tid => entering_blocked_op tid s
  | .leaveBlocked tid => left_blocked_op tid s
  | .enableForcedIdle tid => libidle_enable_forced_idle tid s
  | .disableForcedIdle tid => libidle_disable_forced_idle tid s
  | .threadCreate tid => some (libidle_register_thread s tid)
  | .semOpen handle => some (sem_open (some handle) s).2
  | .semInit sem value => some (sem_init sem value s)
  | .semDestroy sem => some (sem_destroy 0 sem s).2
  | .semPost sem => sem_post sem s
  | .semWaitEnter tid sem => libidle_sem_wait_pre tid sem s
  | .semWaitReturn tid sem named => libidle_sem_wait_post tid sem named s
  | .condInit cond newIn newOut => some (pthread_cond_init_232 cond newIn newOut s)
  | .condDestroy cond =>
      match pthread_cond_destroy_232 0 cond s with
      | none => none
      | some (_, s1) => some s1
  | .condWaitEnter cond =>
      match pthread_cond_wait_enter cond s with
      | none => none
      | some (s1, _, _) => some s1
  | .condBroadcastRotate tid cond newIn newOut =>
      match pthread_cond_broadcast_rotate tid cond newIn newOut s with
      | none => none
      | some (s1, _, _, _) => some s1

/-- Run a list of critical sections. -/
def applyOps (ops : List Op) (s : LibIdleState) : Option LibIdleState :=
  match ops with
  | [] => some s
  | op :: rest =>
    match applyOp op s with
    | none => none
    | some s1 => applyOps rest s1

/-!  Reference definitions written from the spec's words, for the
refinement claims. -/

/-- Reference definition of *blocked* (spec §3 invariant 1): a thread is
blocked iff `forced_idle`, or sleeping with no waiting semaphore, or
sleeping on a semaphore record whose `pending_wakeups` is 0. -/
def blocked_ref (sems : List SemaphoreInfo) (t : ThreadInfo) : Prop :=
  t.forced_idle = true
    ∨ (t.sleeping = true ∧ t.waiting_semaphore = none)
    ∨ (t.sleeping = true ∧ ∃ w si, t.waiting_semaphore = some w
        ∧ libidle_find_sem_info sems w = some si ∧ si.pending_wakeups = 0)

/-- Registry well-formedness: pending-wakeup counts are non-negative
(spec: `pending_wakeups : int ≥ 0`) and every waiting link resolves to a
registered semaphore record. -/
def registry_wf (s : LibIdleState) : Prop :=
  (∀ si ∈ s.sem_info, 0 ≤ si.pending_wakeups)
    ∧ ∀ t ∈ s.thr_info,
        t.waiting_semaphore.all (fun w => (libidle_find_sem_info s.sem_info w).isSome) = true

/-- The return path of the anonymous-semaphore wait, in the order the
spec words it (§4.4 step 4): one critical section that sets
`sleeping := false`, then clears `waiting_semaphore`, then decrements
`pending_wakeups`, and only then invokes `maybe_lock`.  Written from the
spec, to be compared with `libidle_sem_wait_post`. -/
def sem_wait_return_specOrder (tid : Tid) (sem : Addr) (s : LibIdleState) :
    Option LibIdleState :=
  let s1 := { s with thr_info := set_thr s.thr_info tid (fun t => { t with sleeping := false }) }
  let s2 := { s1 with thr_info := set_thr s1.thr_info tid (fun t => { t with waiting_semaphore := none }) }
  let s3 := { s2 with sem_info := bump_sem s2.sem_info sem (-1) }
  maybe_lock s3

/-- The same return path in the order the source performs it, spelled out
flat: `sleeping := false`, then `maybe_lock`, then clear
`waiting_semaphore`, then decrement `pending_wakeups`. -/
def sem_wait_return_codeOrder (tid : Tid) (sem : Addr) (s : LibIdleState) :
    Option LibIdleState :=
  let s1 := { s with thr_info := set_thr s.thr_info tid (fun t => { t with sleeping := false }) }
  match maybe_lock s1 with
  | none => none
  | some s2 =>
    let s3 := { s2 with thr_info := set_thr s2.thr_info tid (fun t => { t with waiting_semaphore := none }) }
    some { s3 with sem_info := bump_sem s3.sem_info sem (-1) }

/-- The waiting-semaphore link of thread `tid`, when its record exists. -/
def ws_of (s : LibIdleState) (tid : Tid) : Option Addr :=
  (libidle_find_thr_info s.thr_info tid).bind (fun t => t.waiting_semaphore)

/-- Whether the record the scan yields for address `a` is a named
semaphore. -/
def named_at (s : LibIdleState) (a : Addr) : Bool :=
  match libidle_find_sem_info s.sem_info a with
  | some rec => rec.named_semaphore
  | none => false

/-- A concrete state on which the spec's ordering of the wait-return
path and the source's ordering disagree: the calling thread 1 is inside a
forced-idle pair while waiting on semaphore 100, and thread 2 sleeps on
the same semaphore, which has one pending wakeup. -/
def wait_return_cex_state : LibIdleState :=
  { locked := false, times_idle := 0, written := [],
    sem_info := [⟨100, false, 1⟩], cond_info := [],
    thr_info := [⟨1, true, true, some 100⟩, ⟨2, true, false, some 100⟩] }

/-- How one critical section may move the gate: either it leaves the
counter and the file alone, or it performs one idle transition. -/
def gateOk (s s' : LibIdleState) : Prop :=
  (s'.times_idle = s.times_idle ∧ s'.written = s.written)
    ∨ (s'.times_idle = s.times_idle + 1 ∧ s'.written = s.written ++ [s.times_idle + 1])

/-- The file/counter invariant: the values written so far are strictly
increasing and all bounded by the current counter. -/
def gate_inv (s : LibIdleState) : Prop :=
  s.written.Pairwise (· < ·) ∧ ∀ v ∈ s.written, v ≤ s.times_idle

/-- A concrete state for exercising the broadcast rotation: one
condition variable 50 whose current IN and OUT are 10 and 11, with two
sleeping waiters recorded. -/
def broadcast_wit_state : LibIdleState :=
  { locked := true, times_idle := 0, written := [],
    sem_info := [⟨10, false, 0⟩, ⟨11, false, 0⟩],
    cond_info := [⟨50, 10, 11, 2⟩],
    thr_info := [⟨1, false, false, none⟩] }

/-- The state `broadcast_wit_state` reaches after the rotation of a
broadcast on 50 installing fresh semaphores 20 and 21. -/
def broadcast_wit_rotated : LibIdleState :=
  { locked := true, times_idle := 0, written := [],
    sem_info := [⟨10, false, 0⟩, ⟨11, false, 0⟩, ⟨20, false, 0⟩, ⟨21, false, 0⟩],
    cond_info := [⟨50, 20, 21, 0⟩],
    thr_info := [⟨1, false, false, none⟩] }

/-- A concrete state holding a named semaphore 9 with a (stale) waiting
link from thread 1 to it. -/
def named_link_state : LibIdleState :=
  { locked := true, times_idle := 0, written := [],
    sem_info := [⟨9, true, 0⟩], cond_info := [],
    thr_info := [⟨1, false, false, some 9⟩] }


/-!  Helper lemmas about the registry scans and updates. -/

theorem set_thr_not_found (thrs : List ThreadInfo) (id : Tid) (f : ThreadInfo → ThreadInfo)
    (h : libidle_find_thr_info thrs id = none) : set_thr thrs id f = thrs := by
  induction thrs with
  | nil => rfl
  | cons t ts ih =>
    simp only [libidle_find_thr_info, List.find?_cons] at h ih
    cases hb : (t.id == id) with
    | true => simp [hb] at h
    | false =>
      simp only [hb] at h
      simp [set_thr, hb, ih h]

theorem find_thr_set_thr (thrs : List ThreadInfo) (id : Tid) (f : ThreadInfo → ThreadInfo)
    (hf : ∀ t, (f t).id = t.id) (tid : Tid) :
    libidle_find_thr_info (set_thr thrs id f) tid =
      if tid = id then (libidle_find_thr_info thrs id).map f
      else libidle_find_thr_info thrs tid := by
  induction thrs with
  | nil => simp [libidle_find_thr_info, set_thr]
  | cons t ts ih =>
    simp only [libidle_find_thr_info, set_thr] at ih ⊢
    cases hb : (t.id == id) with
    | true =>
      have hteq : t.id = id := by simpa using hb
      by_cases htid : tid = id
      · simp [hb, List.find?_cons, hf, hteq, htid]
      · simp [hb, List.find?_cons, hf, hteq, htid, Ne.symm htid]
    | false =>
      have htne : ¬ t.id = id := by simpa using hb
      by_cases htid : tid = id
      · subst htid
        simp [hb, List.find?_cons, htne, ih]
      · by_cases htt : t.id = tid
        · simp [hb, List.find?_cons, htt, htid]
        · simp [hb, List.find?_cons, htt, htid, ih]

theorem find_sem_set_sem (sems : List SemaphoreInfo) (a : Addr) (f : SemaphoreInfo → SemaphoreInfo)
    (hf : ∀ x, (f x).sem = x.sem) (w : Addr) :
    libidle_find_sem_info (set_sem sems a f) w =
      if w = a then (libidle_find_sem_info sems a).map f
      else libidle_find_sem_info sems w := by
  induction sems with
  | nil => simp [libidle_find_sem_info, set_sem]
  | cons x xs ih =>
    simp only [libidle_find_sem_info, set_sem] at ih ⊢
    cases hb : (x.sem == a) with
    | true =>
      have hxeq : x.sem = a := by simpa using hb
      by_cases hw : w = a
      · simp [hb, List.find?_cons, hf, hxeq, hw]
      · simp [hb, List.find?_cons, hf, hxeq, hw, Ne.symm hw]
    | false =>
      have hxne : ¬ x.sem = a := by simpa using hb
      by_cases hw : w = a
      · subst hw
        simp [hb, List.find?_cons, hxne, ih]
      · by_cases hxw : x.sem = w
        · simp [hb, List.find?_cons, hxw, hw]
        · simp [hb, List.find?_cons, hxw, hw, ih]

theorem find_cond_set_cond (conds : List ConditionInfo) (a : Addr)
    (f : ConditionInfo → ConditionInfo) (hf : ∀ x, (f x).cond = x.cond) (c : Addr) :
    libidle_find_cond_info (set_cond conds a f) c =
      if c = a then (libidle_find_cond_info conds a).map f
      else libidle_find_cond_info conds c := by
  induction conds with
  | nil => simp [libidle_find_cond_info, set_cond]
  | cons x xs ih =>
    simp only [libidle_find_cond_info, set_cond] at ih ⊢
    cases hb : (x.cond == a) with
    | true =>
      have hxeq : x.cond = a := by simpa using hb
      by_cases hc : c = a
      · simp [hb, List.find?_cons, hf, hxeq, hc]
      · simp [hb, List.find?_cons, hf, hxeq, hc, Ne.symm hc]
    | false =>
      have hxne : ¬ x.cond = a := by simpa using hb
      by_cases hc : c = a
      · subst hc
        simp [hb, List.find?_cons, hxne, ih]
      · by_cases hxc : x.cond = c
        · simp [hb, List.find?_cons, hxc, hc]
        · simp [hb, List.find?_cons, hxc, hc, ih]

theorem find_sem_append (l₁ l₂ : List SemaphoreInfo) (a : Addr) :
    libidle_find_sem_info (l₁ ++ l₂) a =
      ((libidle_find_sem_info l₁ a).or (libidle_find_sem_info l₂ a)) := by
  simp [libidle_find_sem_info, List.find?_append]

theorem find_thr_append (l₁ l₂ : List ThreadInfo) (tid : Tid) :
    libidle_find_thr_info (l₁ ++ l₂) tid =
      ((libidle_find_thr_info l₁ tid).or (libidle_find_thr_info l₂ tid)) := by
  simp [libidle_find_thr_info, List.find?_append]

/-!  The evaluator entry points never abort (their inner asserts are
guarded by their own conditions), and they touch only the gate fields. -/

theorem maybe_lock_eq (s : LibIdleState) :
    maybe_lock s =
      some (if s.locked = false ∧ 0 < num_active_threads s then { s with locked := true } else s) := by
  unfold maybe_lock
  split
  · rename_i h
    simp [libidle_lock, h.1]
  · rfl

theorem maybe_unlock_eq (s : LibIdleState) :
    maybe_unlock s =
      some (if s.locked = true ∧ num_active_threads s = 0 then
        { s with times_idle := s.times_idle + 1,
                 written := s.written ++ [s.times_idle + 1], locked := false }
      else s) := by
  unfold maybe_unlock
  split
  · rename_i h
    simp [libidle_unlock, h.1]
  · rfl

theorem gateOk_refl (s : LibIdleState) : gateOk s s := Or.inl ⟨rfl, rfl⟩

theorem gateOk_of_fields {s s₁ s' : LibIdleState}
    (ht : s₁.times_idle = s.times_idle) (hw : s₁.written = s.written)
    (h : gateOk s₁ s') : gateOk s s' := by
  unfold gateOk at h ⊢
  rw [ht, hw] at h
  exact h

theorem maybe_unlock_gate {s s' : LibIdleState} (h : maybe_unlock s = some s') :
    gateOk s s' := by
  rw [maybe_unlock_eq] at h
  injection h with h
  subst h
  by_cases hc : s.locked = true ∧ num_active_threads s = 0
  · rw [if_pos hc]; exact Or.inr ⟨rfl, rfl⟩
  · rw [if_neg hc]; exact gateOk_refl s

theorem maybe_lock_gate {s s' : LibIdleState} (h : maybe_lock s = some s') :
    s'.times_idle = s.times_idle ∧ s'.written = s.written := by
  rw [maybe_lock_eq] at h
  injection h with h
  subst h
  by_cases hc : s.locked = false ∧ 0 < num_active_threads s
  · rw [if_pos hc]; exact ⟨rfl, rfl⟩
  · rw [if_neg hc]; exact ⟨rfl, rfl⟩

theorem entering_blocked_op_gate {tid : Tid} {s s' : LibIdleState}
    (h : entering_blocked_op tid s = some s') : gateOk s s' := by
  unfold entering_blocked_op at h
  cases hf : libidle_find_thr_info s.thr_info tid with
  | some t =>
    rw [hf] at h
    have h2 : maybe_unlock
        { s with thr_info := set_thr s.thr_info tid (fun u => { u with sleeping := true }) }
        = some s' := h
    have h3 := maybe_unlock_gate h2
    exact gateOk_of_fields rfl rfl h3
  | none => rw [hf] at h; exact maybe_unlock_gate h

theorem left_blocked_op_gate {tid : Tid} {s s' : LibIdleState}
    (h : left_blocked_op tid s = some s') :
    s'.times_idle = s.times_idle ∧ s'.written = s.written := by
  unfold left_blocked_op at h
  cases hf : libidle_find_thr_info s.thr_info tid with
  | some t =>
    rw [hf] at h
    have h2 : maybe_lock
        { s with thr_info := set_thr s.thr_info tid (fun u => { u with sleeping := false }) }
        = some s' := h
    have h3 := maybe_lock_gate h2
    exact ⟨h3.1, h3.2⟩
  | none => rw [hf] at h; exact maybe_lock_gate h

/-- Any successful critical section either leaves the idle counter and
the written file alone, or performs exactly one idle transition. -/
theorem applyOp_gate {op : Op} {s s' : LibIdleState} (h : applyOp op s = some s') :
    gateOk s s' := by
  cases op with
  | enterBlocked tid => exact entering_blocked_op_gate h
  | leaveBlocked tid =>
    have h3 := left_blocked_op_gate h
    exact Or.inl h3
  | enableForcedIdle tid =>
    simp only [applyOp] at h
    unfold libidle_enable_forced_idle at h
    cases hf : libidle_find_thr_info s.thr_info tid with
    | none => rw [hf] at h; exact absurd h (by simp)
    | some t =>
      rw [hf] at h
      have h2 : maybe_unlock
          { s with thr_info := set_thr s.thr_info tid (fun u => { u with forced_idle := true }) }
          = some s' := h
      have h3 := maybe_unlock_gate h2
      exact gateOk_of_fields rfl rfl h3
  | disableForcedIdle tid =>
    simp only [applyOp] at h
    unfold libidle_disable_forced_idle at h
    cases hf : libidle_find_thr_info s.thr_info tid with
    | none => rw [hf] at h; exact absurd h (by simp)
    | some t =>
      rw [hf] at h
      have h2 : maybe_lock
          { s with thr_info := set_thr s.thr_info tid (fun u => { u with forced_idle := false }) }
          = some s' := h
      have h3 := maybe_lock_gate h2
      exact Or.inl ⟨h3.1, h3.2⟩
  | threadCreate tid =>
    simp only [applyOp] at h
    injection h with h
    subst h
    exact Or.inl ⟨rfl, rfl⟩
  | semOpen handle =>
    simp only [applyOp, sem_open] at h
    injection h with h
    subst h
    exact Or.inl ⟨rfl, rfl⟩
  | semInit sem value =>
    simp only [applyOp] at h
    injection h with h
    subst h
    exact Or.inl ⟨rfl, rfl⟩
  | semDestroy sem =>
    simp only [applyOp, sem_destroy] at h
    injection h with h
    subst h
    exact Or.inl ⟨rfl, rfl⟩
  | semPost sem =>
    simp only [applyOp] at h
    unfold sem_post at h
    cases hf : libidle_find_sem_info s.sem_info sem with
    | none => rw [hf] at h; exact absurd h (by simp)
    | some si =>
      rw [hf] at h
      injection h with h
      subst h
      exact Or.inl ⟨rfl, rfl⟩
  | semWaitEnter tid sem =>
    simp only [applyOp] at h
    unfold libidle_sem_wait_pre at h
    cases hf : libidle_find_sem_info s.sem_info sem with
    | none => rw [hf] at h; exact absurd h (by simp)
    | some si =>
      rw [hf] at h
      cases ht : libidle_find_thr_info s.thr_info tid with
      | none => rw [ht] at h; exact absurd h (by simp)
      | some t =>
        rw [ht] at h
        dsimp only at h
        by_cases hn : si.named_semaphore = true
        · rw [if_pos hn] at h
          injection h with h
          subst h
          exact gateOk_refl s
        · rw [if_neg hn] at h
          have h2 : entering_blocked_op tid
              { s with thr_info := (set_thr s.thr_info tid
                  (fun u => { u with waiting_semaphore := some sem })) } = some s' := h
          have h3 := entering_blocked_op_gate h2
          exact gateOk_of_fields rfl rfl h3
  | semWaitReturn tid sem named =>
    simp only [applyOp] at h
    unfold libidle_sem_wait_post at h
    by_cases hn : named = true
    · rw [if_pos hn] at h
      injection h with h
      subst h
      exact gateOk_refl s
    · rw [if_neg hn] at h
      cases hl : left_blocked_op tid s with
      | none => rw [hl] at h; exact absurd h (by simp)
      | some s1 =>
        rw [hl] at h
        injection h with h
        subst h
        have h3 := left_blocked_op_gate hl
        exact Or.inl ⟨h3.1, h3.2⟩
  | condInit cond newIn newOut =>
    simp only [applyOp] at h
    injection h with h
    subst h
    exact Or.inl ⟨rfl, rfl⟩
  | condDestroy cond =>
    simp only [applyOp] at h
    unfold pthread_cond_destroy_232 at h
    cases hf : libidle_find_cond_info s.cond_info cond with
    | none =>
      rw [hf] at h
      injection h with h
      subst h
      exact gateOk_refl s
    | some ci =>
      rw [hf] at h
      dsimp only at h
      by_cases hz : ci.sleeping_threads = 0
      · rw [if_pos hz] at h
        dsimp only at h
        injection h with h
        subst h
        exact Or.inl ⟨rfl, rfl⟩
      · rw [if_neg hz] at h
        exact absurd h (by simp)
  | condWaitEnter cond =>
    simp only [applyOp] at h
    unfold pthread_cond_wait_enter at h
    cases hf : libidle_find_cond_info s.cond_info cond with
    | none => rw [hf] at h; exact absurd h (by simp)
    | some ci =>
      rw [hf] at h
      injection h with h
      subst h
      exact Or.inl ⟨rfl, rfl⟩
  | condBroadcastRotate tid cond newIn newOut =>
    simp only [applyOp] at h
    unfold pthread_cond_broadcast_rotate at h
    cases hf : libidle_find_cond_info s.cond_info cond with
    | none => rw [hf] at h; exact absurd h (by simp)
    | some ci =>
      rw [hf] at h
      cases ht : libidle_find_thr_info s.thr_info tid with
      | none => rw [ht] at h; exact absurd h (by simp)
      | some t =>
        rw [ht] at h
        injection h with h
        subst h
        exact Or.inl ⟨rfl, rfl⟩

theorem gate_inv_step {s s' : LibIdleState} (hi : gate_inv s) (hg : gateOk s s') :
    gate_inv s' := by
  obtain ⟨hp, hb⟩ := hi
  cases hg with
  | inl h =>
    refine ⟨?_, ?_⟩
    · rw [h.2]; exact hp
    · intro v hv; rw [h.2] at hv; rw [h.1]; exact hb v hv
  | inr h =>
    refine ⟨?_, ?_⟩
    · rw [h.2]
      refine List.pairwise_append.mpr ⟨hp, List.pairwise_singleton _ _, ?_⟩
      intro a ha b hbm
      simp only [List.mem_singleton] at hbm
      subst hbm
      have := hb a ha
      omega
    · intro v hv
      rw [h.2] at hv
      rw [h.1]
      rcases List.mem_append.mp hv with h1 | h2
      · have := hb v h1; omega
      · simp only [List.mem_singleton] at h2; omega

theorem applyOps_gate_inv {ops : List Op} {s s' : LibIdleState}
    (hi : gate_inv s) (h : applyOps ops s = some s') : gate_inv s' := by
  induction ops generalizing s with
  | nil =>
    unfold applyOps at h
    injection h with h
    subst h
    exact hi
  | cons op rest ih =>
    unfold applyOps at h
    cases ha : applyOp op s with
    | none => rw [ha] at h; exact absurd h (by simp)
    | some s1 =>
      rw [ha] at h
      exact ih (gate_inv_step hi (applyOp_gate ha)) h

theorem gate_inv_init (t : Tid) : gate_inv (libidle_init t) := by
  constructor
  · exact List.Pairwise.nil
  · intro v hv
    exact absurd hv (by simp [libidle_init])


theorem findIdx?_none_of_find?_none {α : Type} {p : α → Bool} :
    ∀ (l : List α), l.find? p = none → ∀ i, l.findIdx? p i = none := by
  intro l h
  have hall := List.find?_eq_none.mp h
  clear h
  induction l with
  | nil => intro i; rfl
  | cons x xs ih =>
    intro i
    rw [List.findIdx?_cons, if_neg (by simpa using hall x (List.mem_cons_self x xs))]
    exact ih (fun a ha => hall a (List.mem_cons_of_mem x ha)) (i + 1)

theorem length_filter_not_add_length_filter {α : Type} (p : α → Bool) (l : List α) :
    (l.filter (fun a => !p a)).length + (l.filter p).length = l.length := by
  induction l with
  | nil => rfl
  | cons a as ih =>
    by_cases h : p a = true <;>
      simp only [List.filter_cons, h, Bool.not_true, Bool.not_false, if_true, if_false,
        Bool.false_eq_true, List.length_cons] <;> omega

theorem maybe_unlock_regs {s s' : LibIdleState} (h : maybe_unlock s = some s') :
    s'.sem_info = s.sem_info ∧ s'.cond_info = s.cond_info ∧ s'.thr_info = s.thr_info := by
  rw [maybe_unlock_eq] at h
  injection h with h
  subst h
  by_cases hc : s.locked = true ∧ num_active_threads s = 0
  · rw [if_pos hc]; exact ⟨rfl, rfl, rfl⟩
  · rw [if_neg hc]; exact ⟨rfl, rfl, rfl⟩

theorem maybe_lock_regs {s s' : LibIdleState} (h : maybe_lock s = some s') :
    s'.sem_info = s.sem_info ∧ s'.cond_info = s.cond_info ∧ s'.thr_info = s.thr_info := by
  rw [maybe_lock_eq] at h
  injection h with h
  subst h
  by_cases hc : s.locked = false ∧ 0 < num_active_threads s
  · rw [if_pos hc]; exact ⟨rfl, rfl, rfl⟩
  · rw [if_neg hc]; exact ⟨rfl, rfl, rfl⟩

theorem find_bind_ws_set_thr (thrs : List ThreadInfo) (id : Tid) (f : ThreadInfo → ThreadInfo)
    (hid : ∀ u, (f u).id = u.id) (hws : ∀ u, (f u).waiting_semaphore = u.waiting_semaphore)
    (tid : Tid) :
    ((libidle_find_thr_info (set_thr thrs id f) tid).bind (fun t => t.waiting_semaphore))
      = (libidle_find_thr_info thrs tid).bind (fun t => t.waiting_semaphore) := by
  rw [find_thr_set_thr thrs id f hid tid]
  by_cases h : tid = id
  · subst h
    rw [if_pos rfl]
    cases libidle_find_thr_info thrs tid with
    | none => rfl
    | some t => simp [hws]
  · rw [if_neg h]

/-!  Claim theorems. -/

/-- C1 (code bug): at a successful named open — underlying handle 5 from
the freshly initialized state — the wrapper registers a Semaphore Record
with `named = true`, and a failed underlying open propagates SEM_FAILED
unchanged; but the wrapper returns the literal null pointer 0 to the
caller instead of the handle 5 produced by the underlying open. -/
theorem C1_sem_open_returns_null_not_handle :
    (sem_open (some 5) (libidle_init 1)).1 = some 0
      ∧ (sem_open (some 5) (libidle_init 1)).1 ≠ some 5
      ∧ libidle_find_sem_info (sem_open (some 5) (libidle_init 1)).2.sem_info 5
          = some ⟨5, true, 0⟩
      ∧ sem_open none (libidle_init 1) = (none, libidle_init 1) := by
  refine ⟨by decide, by decide, by decide, by decide⟩

/-- C10: `sem_destroy` and `pthread_cond_destroy` on an object with no
registry record do not abort: the registry is left unchanged and the
underlying destroy result `r` is returned unchanged. -/
theorem C10_destroy_without_record :
    (∀ (s : LibIdleState) (a : Addr) (r : Int),
        libidle_find_sem_info s.sem_info a = none → sem_destroy r a s = (r, s))
      ∧ (∀ (s : LibIdleState) (a : Addr) (r : Int),
        libidle_find_cond_info s.cond_info a = none →
          pthread_cond_destroy_232 r a s = some (r, s)) := by
  constructor
  · intro s a r h
    unfold sem_destroy swap_remove_sem
    rw [findIdx?_none_of_find?_none _ h 0]
  · intro s a r h
    unfold pthread_cond_destroy_232
    rw [h]

theorem C10_destroy_without_record_witness :
    libidle_find_sem_info (libidle_init 1).sem_info 3 = none
      ∧ sem_destroy 0 3 (libidle_init 1) = (0, libidle_init 1)
      ∧ libidle_find_cond_info (libidle_init 1).cond_info 3 = none
      ∧ pthread_cond_destroy_232 0 3 (libidle_init 1) = some (0, libidle_init 1) :=
  ⟨by decide, C10_destroy_without_record.1 (libidle_init 1) 3 0 (by decide),
   by decide, C10_destroy_without_record.2 (libidle_init 1) 3 0 (by decide)⟩

/-- C8: a wait or timedwait on a named semaphore (one whole call, with no
interleaved critical sections) leaves the entire state unchanged: the
calling thread is never marked sleeping, its waiting link is never set,
and no `pending_wakeups` or `active_threads` change. -/
theorem C8_named_wait_is_frame (tid : Tid) (sem : Addr) (s : LibIdleState)
    (rec : SemaphoreInfo) (t : ThreadInfo)
    (hs : libidle_find_sem_info s.sem_info sem = some rec)
    (hn : rec.named_semaphore = true)
    (ht : libidle_find_thr_info s.thr_info tid = some t) :
    libidle_sem_wait_full tid sem s = some s := by
  have hpre : libidle_sem_wait_pre tid sem s = some s := by
    unfold libidle_sem_wait_pre
    rw [hs]
    dsimp only
    rw [ht]
    dsimp only
    rw [if_pos hn]
  unfold libidle_sem_wait_full
  rw [hs]
  dsimp only
  rw [hpre]
  dsimp only
  unfold libidle_sem_wait_post
  rw [if_pos hn]

theorem C8_named_wait_is_frame_witness :
    libidle_find_sem_info ((sem_open (some 7) (libidle_init 1)).2).sem_info 7 = some ⟨7, true, 0⟩
      ∧ libidle_sem_wait_full 1 7 ((sem_open (some 7) (libidle_init 1)).2)
          = some ((sem_open (some 7) (libidle_init 1)).2) :=
  ⟨by decide,
   C8_named_wait_is_frame 1 7 ((sem_open (some 7) (libidle_init 1)).2) ⟨7, true, 0⟩
     ⟨1, false, false, none⟩ (by decide) (by decide) (by decide)⟩

/-- C7 counterexample: the blocked-op bracket used by the accept / recv /
join wrappers looks up the calling thread's own record, and the lookup
fails here (thread 7 is not registered), yet the operation completes
without aborting — it does not abort via assertion as the claim states. -/
theorem C7_counterexample_bracket_tolerates_missing_thread :
    libidle_find_thr_info (libidle_init 1).thr_info 7 = none
      ∧ entering_blocked_op 7 (libidle_init 1) = some (libidle_init 1)
      ∧ left_blocked_op 7 (libidle_init 1) = some (libidle_init 1) := by
  refine ⟨by decide, by decide, by decide⟩

/-- C7 amended: `sem_post`, the semaphore wait (both its semaphore lookup
and its calling-thread lookup), broadcast (both its condition lookup and
its calling-thread lookup) and the forced-idle toggles abort via
assertion when the lookup fails; but the blocked-op brackets used by
accept / recv / join tolerate a missing calling-thread record and never
abort. -/
theorem C7_asserts_on_missing_records :
    (∀ (s : LibIdleState) (a : Addr),
        libidle_find_sem_info s.sem_info a = none → sem_post a s = none)
  ∧ (∀ (s : LibIdleState) (tid : Tid) (a : Addr),
        libidle_find_sem_info s.sem_info a = none → libidle_sem_wait_pre tid a s = none)
  ∧ (∀ (s : LibIdleState) (tid : Tid) (a : Addr) (rec : SemaphoreInfo),
        libidle_find_sem_info s.sem_info a = some rec →
        libidle_find_thr_info s.thr_info tid = none → libidle_sem_wait_pre tid a s = none)
  ∧ (∀ (s : LibIdleState) (tid : Tid) (c nI nO : Addr),
        libidle_find_cond_info s.cond_info c = none →
        pthread_cond_broadcast_rotate tid c nI nO s = none)
  ∧ (∀ (s : LibIdleState) (tid : Tid) (c nI nO : Addr) (ci : ConditionInfo),
        libidle_find_cond_info s.cond_info c = some ci →
        libidle_find_thr_info s.thr_info tid = none →
        pthread_cond_broadcast_rotate tid c nI nO s = none)
  ∧ (∀ (s : LibIdleState) (tid : Tid),
        libidle_find_thr_info s.thr_info tid = none →
        libidle_enable_forced_idle tid s = none ∧ libidle_disable_forced_idle tid s = none)
  ∧ (∀ (s : LibIdleState) (tid : Tid),
        libidle_find_thr_info s.thr_info tid = none →
        entering_blocked_op tid s = maybe_unlock s ∧ left_blocked_op tid s = maybe_lock s
          ∧ entering_blocked_op tid s ≠ none ∧ left_blocked_op tid s ≠ none) := by
  refine ⟨?_, ?_, ?_, ?_, ?_, ?_, ?_⟩
  · intro s a h
    unfold sem_post
    rw [h]
  · intro s tid a h
    unfold libidle_sem_wait_pre
    rw [h]
  · intro s tid a rec hs ht
    unfold libidle_sem_wait_pre
    rw [hs]
    dsimp only
    rw [ht]
  · intro s tid c nI nO h
    unfold pthread_cond_broadcast_rotate
    rw [h]
  · intro s tid c nI nO ci hc ht
    unfold pthread_cond_broadcast_rotate
    rw [hc]
    dsimp only
    rw [ht]
  · intro s tid h
    unfold libidle_enable_forced_idle libidle_disable_forced_idle
    rw [h]
    exact ⟨rfl, rfl⟩
  · intro s tid h
    unfold entering_blocked_op left_blocked_op
    rw [h]
    dsimp only
    refine ⟨rfl, rfl, ?_, ?_⟩
    · rw [maybe_unlock_eq]; exact Option.some_ne_none _
    · rw [maybe_lock_eq]; exact Option.some_ne_none _

theorem C7_asserts_on_missing_records_witness :
    sem_post 3 (libidle_init 1) = none
      ∧ libidle_sem_wait_pre 1 3 (libidle_init 1) = none
      ∧ libidle_sem_wait_pre 7 7 ((sem_open (some 7) (libidle_init 1)).2) = none
      ∧ pthread_cond_broadcast_rotate 1 9 20 21 (libidle_init 1) = none
      ∧ libidle_enable_forced_idle 7 (libidle_init 1) = none
      ∧ entering_blocked_op 7 (libidle_init 1) ≠ none :=
  ⟨C7_asserts_on_missing_records.1 (libidle_init 1) 3 (by decide),
   C7_asserts_on_missing_records.2.1 (libidle_init 1) 1 3 (by decide),
   C7_asserts_on_missing_records.2.2.1 ((sem_open (some 7) (libidle_init 1)).2) 7 7
     ⟨7, true, 0⟩ (by decide) (by decide),
   C7_asserts_on_missing_records.2.2.2.1 (libidle_init 1) 1 9 20 21 (by decide),
   (C7_asserts_on_missing_records.2.2.2.2.2.1 (libidle_init 1) 7 (by decide)).1,
   (C7_asserts_on_missing_records.2.2.2.2.2.2 (libidle_init 1) 7 (by decide)).2.2.1⟩

/-- C4 counterexample: on `wait_return_cex_state` the return path as the
source performs it and the return path in the claim's order (sleeping,
then clear link, then decrement, then `maybe_lock`) produce different
states — in particular they disagree on `locked` — so the wrapper does
not perform the four steps in the claimed order. -/
theorem C4_counterexample_return_order :
    libidle_sem_wait_post 1 100 false wait_return_cex_state
      ≠ sem_wait_return_specOrder 1 100 wait_return_cex_state := by
  decide

/-- C4 amended: the anonymous wait-return path performs, under one outer
critical section: `sleeping := false`, then `maybe_lock` (both inside
`left_blocked_op`), then clears `waiting_semaphore`, then decrements
`pending_wakeups` — i.e. `maybe_lock` runs before the link is cleared and
the count decremented, not after. -/
theorem C4_return_order_as_implemented (tid : Tid) (sem : Addr) (s : LibIdleState) :
    libidle_sem_wait_post tid sem false s = sem_wait_return_codeOrder tid sem s := by
  unfold libidle_sem_wait_post sem_wait_return_codeOrder left_blocked_op
  rw [if_neg (by decide : ¬ (false = true))]
  cases ht : libidle_find_thr_info s.thr_info tid with
  | some t => rfl
  | none =>
    rw [set_thr_not_found _ _ _ ht]

/-- C2 counterexample: from the freshly initialized state (one registered,
active thread, gate locked), `enable_forced_idle` immediately followed by
`disable_forced_idle` raises `times_idle` from 0 to 1 — the pair is not a
no-op on `times_idle`. -/
theorem C2_counterexample_pair_increments :
    Option.map LibIdleState.times_idle
        ((libidle_enable_forced_idle 1 (libidle_init 1)).bind (libidle_disable_forced_idle 1))
      = some 1
      ∧ (libidle_init 1).times_idle = 0 := by
  refine ⟨by decide, by decide⟩

/-- C2 amended: for a registered calling thread, the pair
`enable_forced_idle; disable_forced_idle` with no intervening calls
leaves `times_idle` unchanged unless the enable call itself executes the
idle transition (the gate is locked and, once the caller is forced idle,
no thread is active) — in which case the pair increments `times_idle` by
exactly one. -/
theorem C2_forced_idle_pair (tid : Tid) (s : LibIdleState) (t : ThreadInfo)
    (ht : libidle_find_thr_info s.thr_info tid = some t) :
    ∀ s₁ s₂, libidle_enable_forced_idle tid s = some s₁ →
      libidle_disable_forced_idle tid s₁ = some s₂ →
      s₂.times_idle =
        (if s.locked = true
            ∧ num_active_threads
                { s with thr_info := set_thr s.thr_info tid (fun u => { u with forced_idle := true }) }
              = 0
         then s.times_idle + 1 else s.times_idle)
      ∧ (libidle_enable_forced_idle tid s).isSome = true
      ∧ ∀ u₁, libidle_enable_forced_idle tid s = some u₁ →
          (libidle_disable_forced_idle tid u₁).isSome = true := by
  intro s₁ s₂ h1 h2
  have hth : ∀ u : LibIdleState, libidle_enable_forced_idle tid s = some u →
      u.thr_info = set_thr s.thr_info tid (fun v => { v with forced_idle := true })
        ∧ u.times_idle = (if s.locked = true
            ∧ num_active_threads
                { s with thr_info := set_thr s.thr_info tid (fun v => { v with forced_idle := true }) }
              = 0
          then s.times_idle + 1 else s.times_idle) := by
    intro u hu
    unfold libidle_enable_forced_idle at hu
    rw [ht] at hu
    have hu2 : maybe_unlock
        { s with thr_info := set_thr s.thr_info tid (fun v => { v with forced_idle := true }) }
        = some u := hu
    rw [maybe_unlock_eq] at hu2
    injection hu2 with hu2
    subst hu2
    by_cases hc : s.locked = true
        ∧ num_active_threads
            { s with thr_info := set_thr s.thr_info tid (fun v => { v with forced_idle := true }) }
          = 0
    · rw [if_pos hc, if_pos hc]
      exact ⟨rfl, rfl⟩
    · rw [if_neg hc, if_neg hc]
      exact ⟨rfl, rfl⟩
  have hs₁ := hth s₁ h1
  have hfind1 : libidle_find_thr_info s₁.thr_info tid = some { t with forced_idle := true } := by
    rw [hs₁.1, find_thr_set_thr s.thr_info tid
      (fun v => { v with forced_idle := true }) (fun _ => rfl) tid, if_pos rfl, ht]
    rfl
  have h2b : maybe_lock
      { s₁ with thr_info := set_thr s₁.thr_info tid (fun v => { v with forced_idle := false }) }
      = some s₂ := by
    unfold libidle_disable_forced_idle at h2
    rw [hfind1] at h2
    exact h2
  have hgl := maybe_lock_gate h2b
  refine ⟨?_, ?_, ?_⟩
  · rw [hgl.1]
    exact hs₁.2
  · unfold libidle_enable_forced_idle
    rw [ht]
    dsimp only
    rw [maybe_unlock_eq]
    rfl
  · intro u₁ hu₁
    have hf := hth u₁ hu₁
    have hfindu : libidle_find_thr_info u₁.thr_info tid = some { t with forced_idle := true } := by
      rw [hf.1, find_thr_set_thr s.thr_info tid
        (fun v => { v with forced_idle := true }) (fun _ => rfl) tid, if_pos rfl, ht]
      rfl
    unfold libidle_disable_forced_idle
    rw [hfindu]
    dsimp only
    rw [maybe_lock_eq]
    rfl

theorem C2_forced_idle_pair_witness :
    libidle_find_thr_info (libidle_init 1).thr_info 1 = some ⟨1, false, false, none⟩
      ∧ libidle_enable_forced_idle 1 (libidle_init 1)
          = some ⟨false, 1, [1], [], [], [⟨1, false, true, none⟩]⟩
      ∧ libidle_disable_forced_idle 1 (⟨false, 1, [1], [], [], [⟨1, false, true, none⟩]⟩ : LibIdleState)
          = some ⟨true, 1, [1], [], [], [⟨1, false, false, none⟩]⟩
      ∧ (⟨true, 1, [1], [], [], [⟨1, false, false, none⟩]⟩ : LibIdleState).times_idle =
          (if (libidle_init 1).locked = true
              ∧ num_active_threads
                  { libidle_init 1 with
                    thr_info := set_thr (libidle_init 1).thr_info 1
                      (fun u => { u with forced_idle := true }) }
                = 0
           then (libidle_init 1).times_idle + 1 else (libidle_init 1).times_idle) :=
  ⟨by decide, by decide, by decide,
   (C2_forced_idle_pair 1 (libidle_init 1) ⟨1, false, false, none⟩ (by decide)
     ⟨false, 1, [1], [], [], [⟨1, false, true, none⟩]⟩
     ⟨true, 1, [1], [], [], [⟨1, false, false, none⟩]⟩ (by decide) (by decide)).1⟩

/-- C3: under a well-formed registry, the code's blocked test agrees
pointwise with the reference definition of *blocked*; `active_threads` is
recomputed from scratch (it partitions the thread table against the
blocked test); `maybe_unlock` executes the idle transition exactly when
`locked ∧ active_threads = 0`, and `maybe_lock` executes the busy
transition exactly when `¬locked ∧ active_threads > 0`. -/
theorem C3_evaluator_matches_reference (s : LibIdleState) (hwf : registry_wf s) :
    (∀ t ∈ s.thr_info,
        (threadinfo_is_blocked s.sem_info t = true ↔ blocked_ref s.sem_info t))
  ∧ num_active_threads s
      + (s.thr_info.filter (fun t => threadinfo_is_blocked s.sem_info t)).length
      = s.thr_info.length
  ∧ (s.locked = true ∧ num_active_threads s = 0 → maybe_unlock s = libidle_unlock s)
  ∧ (¬(s.locked = true ∧ num_active_threads s = 0) → maybe_unlock s = some s)
  ∧ (s.locked = false ∧ 0 < num_active_threads s → maybe_lock s = libidle_lock s)
  ∧ (¬(s.locked = false ∧ 0 < num_active_threads s) → maybe_lock s = some s) := by
  refine ⟨?_, ?_, ?_, ?_, ?_, ?_⟩
  · intro t htm
    by_cases hfi : t.forced_idle = true
    · simp [threadinfo_is_blocked, blocked_ref, hfi]
    · by_cases hsl : t.sleeping = true
      · cases hw : t.waiting_semaphore with
        | none =>
          simp [threadinfo_is_blocked, blocked_ref, hfi, hsl, hw]
        | some w =>
          have hall := hwf.2 t htm
          rw [hw] at hall
          have hps : (libidle_find_sem_info s.sem_info w).isSome = true := hall
          obtain ⟨si, hsi⟩ := Option.isSome_iff_exists.mp hps
          have hmem := List.mem_of_find?_eq_some hsi
          have hpos := hwf.1 si hmem
          constructor
          · intro hcode
            unfold threadinfo_is_blocked at hcode
            rw [if_neg hfi, if_neg (by simp [hsl]), hw] at hcode
            dsimp only at hcode
            rw [hsi] at hcode
            dsimp only at hcode
            have hz : si.pending_wakeups = 0 := by
              by_cases hgt : si.pending_wakeups > 0
              · rw [if_pos hgt] at hcode; cases hcode
              · omega
            exact Or.inr (Or.inr ⟨hsl, w, si, hw, hsi, hz⟩)
          · intro href
            rcases href with h | h | h
            · exact absurd h hfi
            · rw [hw] at h
              exact absurd h.2 (by simp)
            · obtain ⟨_, w', si', hw', hsi', hz⟩ := h
              rw [hw] at hw'
              injection hw' with hw'
              subst hw'
              rw [hsi] at hsi'
              injection hsi' with hsi'
              subst hsi'
              unfold threadinfo_is_blocked
              rw [if_neg hfi, if_neg (by simp [hsl]), hw]
              dsimp only
              rw [hsi]
              dsimp only
              rw [if_neg (by omega)]
      · have hsf : t.sleeping = false := by
          cases hb : t.sleeping
          · rfl
          · exact absurd hb hsl
        constructor
        · intro hcode
          unfold threadinfo_is_blocked at hcode
          rw [if_neg hfi, if_pos (by simp [hsf])] at hcode
          cases hcode
        · intro href
          rcases href with h | h | h
          · exact absurd h hfi
          · exact absurd h.1 hsl
          · exact absurd h.1 hsl
  · exact length_filter_not_add_length_filter (fun t => threadinfo_is_blocked s.sem_info t)
      s.thr_info
  · intro h
    unfold maybe_unlock
    rw [if_pos h]
  · intro h
    unfold maybe_unlock
    rw [if_neg h]
  · intro h
    unfold maybe_lock
    rw [if_pos h]
  · intro h
    unfold maybe_lock
    rw [if_neg h]

theorem C3_evaluator_matches_reference_witness :
    registry_wf (libidle_init 1)
      ∧ (∀ t ∈ (libidle_init 1).thr_info,
          (threadinfo_is_blocked (libidle_init 1).sem_info t = true
            ↔ blocked_ref (libidle_init 1).sem_info t))
      ∧ num_active_threads (libidle_init 1)
          + ((libidle_init 1).thr_info.filter
              (fun t => threadinfo_is_blocked (libidle_init 1).sem_info t)).length
          = (libidle_init 1).thr_info.length :=
  ⟨by unfold registry_wf; decide,
   (C3_evaluator_matches_reference (libidle_init 1) (by unfold registry_wf; decide)).1,
   (C3_evaluator_matches_reference (libidle_init 1) (by unfold registry_wf; decide)).2.1⟩

/-- C5: the idle transition (on a locked gate) writes `times_idle + 1` as
the new file content, increments `times_idle`, releases the lock and sets
`locked = false` (and asserts if the gate is not locked); consequently,
along any run of critical sections from the initial state, the successive
values written to the state file are strictly increasing. -/
theorem C5_idle_transition_and_monotonicity :
    (∀ s : LibIdleState, s.locked = true →
        libidle_unlock s = some
          { s with
            times_idle := s.times_idle + 1,
            written := s.written ++ [s.times_idle + 1],
            locked := false })
  ∧ (∀ s : LibIdleState, s.locked = false → libidle_unlock s = none)
  ∧ (∀ (t : Tid) (ops : List Op) (s' : LibIdleState),
      applyOps ops (libidle_init t) = some s' → s'.written.Pairwise (· < ·)) := by
  refine ⟨?_, ?_, ?_⟩
  · intro s h
    unfold libidle_unlock
    rw [if_pos h]
  · intro s h
    unfold libidle_unlock
    rw [if_neg (by simp [h])]
  · intro t ops s' h
    exact (applyOps_gate_inv (gate_inv_init t) h).1

theorem C5_idle_transition_and_monotonicity_witness :
    (libidle_init 1).locked = true
  ∧ libidle_unlock (libidle_init 1)
      = some
          { libidle_init 1 with
            times_idle := (libidle_init 1).times_idle + 1,
            written := (libidle_init 1).written ++ [(libidle_init 1).times_idle + 1],
            locked := false }
  ∧ ({ libidle_init 1 with locked := false } : LibIdleState).locked = false
  ∧ libidle_unlock { libidle_init 1 with locked := false } = none
  ∧ applyOps [Op.enableForcedIdle 1] (libidle_init 1)
      = some ⟨false, 1, [1], [], [], [⟨1, false, true, none⟩]⟩
  ∧ (⟨false, 1, [1], [], [], [⟨1, false, true, none⟩]⟩ : LibIdleState).written.Pairwise (· < ·) :=
  ⟨rfl,
   C5_idle_transition_and_monotonicity.1 (libidle_init 1) rfl,
   rfl,
   C5_idle_transition_and_monotonicity.2.1 { libidle_init 1 with locked := false } rfl,
   by decide,
   C5_idle_transition_and_monotonicity.2.2 1 [Op.enableForcedIdle 1]
     ⟨false, 1, [1], [], [], [⟨1, false, true, none⟩]⟩ (by decide)⟩

/-- C6: broadcast, with `n = sleeping_threads` captured at rotation:
under the coordinator lock it detaches the current IN and OUT, installs
fresh semaphores registered with initial value 0 (anonymous), and resets
`sleeping_threads` to 0; the tail performed outside the lock is exactly
`n` posts to the detached IN, then exactly `n` waits on the detached OUT,
then destruction of the detached pair; when `n = 0` no posts and no waits
occur. -/
theorem C6_broadcast_rotation_and_tokens (s : LibIdleState) (tid : Tid)
    (cond newIn newOut : Addr) (ci : ConditionInfo) (t : ThreadInfo)
    (hc : libidle_find_cond_info s.cond_info cond = some ci)
    (ht : libidle_find_thr_info s.thr_info tid = some t)
    (hfi : libidle_find_sem_info s.sem_info newIn = none)
    (hfo : libidle_find_sem_info s.sem_info newOut = none)
    (hio : newIn ≠ newOut) :
    (∀ s' oi oo n,
        pthread_cond_broadcast_rotate tid cond newIn newOut s = some (s', oi, oo, n) →
        oi = ci.sem_in ∧ oo = ci.sem_out ∧ n = ci.sleeping_threads
          ∧ libidle_find_cond_info s'.cond_info cond = some ⟨cond, newIn, newOut, 0⟩
          ∧ s'.sem_info = s.sem_info ++ [⟨newIn, false, 0⟩, ⟨newOut, false, 0⟩]
          ∧ libidle_find_sem_info s'.sem_info newIn = some ⟨newIn, false, 0⟩
          ∧ libidle_find_sem_info s'.sem_info newOut = some ⟨newOut, false, 0⟩
          ∧ s'.thr_info = s.thr_info ∧ s'.locked = s.locked
          ∧ s'.times_idle = s.times_idle ∧ s'.written = s.written)
      ∧ (pthread_cond_broadcast_rotate tid cond newIn newOut s).isSome = true
      ∧ pthread_cond_broadcast_actions ci.sem_in ci.sem_out ci.sleeping_threads
          = List.replicate ci.sleeping_threads.toNat (CondAction.post ci.sem_in)
            ++ List.replicate ci.sleeping_threads.toNat (CondAction.wait ci.sem_out)
            ++ [CondAction.destroyAct ci.sem_in, CondAction.destroyAct ci.sem_out]
      ∧ (ci.sleeping_threads = 0 →
          pthread_cond_broadcast_actions ci.sem_in ci.sem_out ci.sleeping_threads
            = [CondAction.destroyAct ci.sem_in, CondAction.destroyAct ci.sem_out]) := by
  have hcond : ci.cond = cond := by
    have hp := List.find?_some hc
    simpa using hp
  have hrot : pthread_cond_broadcast_rotate tid cond newIn newOut s = some
      ({ s with
          cond_info := (set_cond (set_cond s.cond_info cond
            (fun c => { c with sem_in := newIn, sem_out := newOut })) cond
            (fun c => { c with sleeping_threads := 0 })),
          sem_info := ((s.sem_info ++ [⟨newIn, false, 0⟩]) ++ [⟨newOut, false, 0⟩]) },
        ci.sem_in, ci.sem_out, ci.sleeping_threads) := by
    unfold pthread_cond_broadcast_rotate
    rw [hc]
    dsimp only
    rw [ht]
    dsimp only
    rfl
  refine ⟨?_, ?_, rfl, ?_⟩
  · intro s' oi oo n h
    rw [hrot] at h
    injection h with h
    injection h with h1 h2
    injection h2 with h2a h2b
    injection h2b with h2b h2c
    subst h1
    subst h2a
    subst h2b
    subst h2c
    refine ⟨rfl, rfl, rfl, ?_, ?_, ?_, ?_, rfl, rfl, rfl, rfl⟩
    · dsimp only
      rw [find_cond_set_cond _ cond (fun c => { c with sleeping_threads := 0 }) (fun _ => rfl) cond,
        if_pos rfl,
        find_cond_set_cond _ cond (fun c => { c with sem_in := newIn, sem_out := newOut })
          (fun _ => rfl) cond,
        if_pos rfl, hc]
      dsimp only [Option.map]
      rw [hcond]
    · dsimp only
      rw [List.append_assoc]
      rfl
    · dsimp only
      unfold libidle_find_sem_info at hfi ⊢
      rw [List.find?_append, List.find?_append, hfi]
      simp
    · dsimp only
      unfold libidle_find_sem_info at hfo ⊢
      rw [List.find?_append, List.find?_append, hfo]
      have : ((⟨newIn, false, 0⟩ : SemaphoreInfo).sem == newOut) = false := by
        simpa using hio
      simp [this]
  · rw [hrot]
    rfl
  · intro h
    rw [h]
    rfl

theorem C6_broadcast_rotation_and_tokens_witness :
    libidle_find_cond_info broadcast_wit_rotated.cond_info 50 = some ⟨50, 20, 21, 0⟩
  ∧ libidle_find_sem_info broadcast_wit_rotated.sem_info 20 = some ⟨20, false, 0⟩
  ∧ libidle_find_sem_info broadcast_wit_rotated.sem_info 21 = some ⟨21, false, 0⟩
  ∧ pthread_cond_broadcast_actions 10 11 2
      = List.replicate (Int.toNat 2) (CondAction.post 10)
        ++ List.replicate (Int.toNat 2) (CondAction.wait 11)
        ++ [CondAction.destroyAct 10, CondAction.destroyAct 11] := by
  have h := C6_broadcast_rotation_and_tokens broadcast_wit_state 1 50 20 21
    ⟨50, 10, 11, 2⟩ ⟨1, false, false, none⟩
    (by decide) (by decide) (by decide) (by decide) (by decide)
  have h1 := h.1 broadcast_wit_rotated 10 11 2 (by decide)
  exact ⟨h1.2.2.2.1, h1.2.2.2.2.2.1, h1.2.2.2.2.2.2.1, h.2.2.1⟩

theorem ws_of_congr {s s' : LibIdleState} (h : s'.thr_info = s.thr_info) (tid : Tid) :
    ws_of s' tid = ws_of s tid := by
  unfold ws_of
  rw [h]

theorem entering_blocked_op_ws {tid : Tid} {s s' : LibIdleState}
    (h : entering_blocked_op tid s = some s') :
    s'.sem_info = s.sem_info ∧ ∀ x, ws_of s' x = ws_of s x := by
  unfold entering_blocked_op at h
  cases hf : libidle_find_thr_info s.thr_info tid with
  | none =>
    rw [hf] at h
    have hr := maybe_unlock_regs h
    exact ⟨hr.1, fun x => ws_of_congr hr.2.2 x⟩
  | some t =>
    rw [hf] at h
    have h2 : maybe_unlock
        { s with thr_info := set_thr s.thr_info tid (fun u => { u with sleeping := true }) }
        = some s' := h
    have hr := maybe_unlock_regs h2
    refine ⟨hr.1, fun x => ?_⟩
    unfold ws_of
    rw [hr.2.2]
    exact find_bind_ws_set_thr s.thr_info tid (fun u => { u with sleeping := true })
      (fun _ => rfl) (fun _ => rfl) x

theorem left_blocked_op_ws {tid : Tid} {s s' : LibIdleState}
    (h : left_blocked_op tid s = some s') :
    s'.sem_info = s.sem_info ∧ ∀ x, ws_of s' x = ws_of s x := by
  unfold left_blocked_op at h
  cases hf : libidle_find_thr_info s.thr_info tid with
  | none =>
    rw [hf] at h
    have hr := maybe_lock_regs h
    exact ⟨hr.1, fun x => ws_of_congr hr.2.2 x⟩
  | some t =>
    rw [hf] at h
    have h2 : maybe_lock
        { s with thr_info := set_thr s.thr_info tid (fun u => { u with sleeping := false }) }
        = some s' := h
    have hr := maybe_lock_regs h2
    refine ⟨hr.1, fun x => ?_⟩
    unfold ws_of
    rw [hr.2.2]
    exact find_bind_ws_set_thr s.thr_info tid (fun u => { u with sleeping := false })
      (fun _ => rfl) (fun _ => rfl) x

theorem enable_forced_idle_ws {tid : Tid} {s s' : LibIdleState}
    (h : libidle_enable_forced_idle tid s = some s') :
    s'.sem_info = s.sem_info ∧ ∀ x, ws_of s' x = ws_of s x := by
  unfold libidle_enable_forced_idle at h
  cases hf : libidle_find_thr_info s.thr_info tid with
  | none => rw [hf] at h; exact absurd h (by simp)
  | some t =>
    rw [hf] at h
    have h2 : maybe_unlock
        { s with thr_info := set_thr s.thr_info tid (fun u => { u with forced_idle := true }) }
        = some s' := h
    have hr := maybe_unlock_regs h2
    refine ⟨hr.1, fun x => ?_⟩
    unfold ws_of
    rw [hr.2.2]
    exact find_bind_ws_set_thr s.thr_info tid (fun u => { u with forced_idle := true })
      (fun _ => rfl) (fun _ => rfl) x

theorem disable_forced_idle_ws {tid : Tid} {s s' : LibIdleState}
    (h : libidle_disable_forced_idle tid s = some s') :
    s'.sem_info = s.sem_info ∧ ∀ x, ws_of s' x = ws_of s x := by
  unfold libidle_disable_forced_idle at h
  cases hf : libidle_find_thr_info s.thr_info tid with
  | none => rw [hf] at h; exact absurd h (by simp)
  | some t =>
    rw [hf] at h
    have h2 : maybe_lock
        { s with thr_info := set_thr s.thr_info tid (fun u => { u with forced_idle := false }) }
        = some s' := h
    have hr := maybe_lock_regs h2
    refine ⟨hr.1, fun x => ?_⟩
    unfold ws_of
    rw [hr.2.2]
    exact find_bind_ws_set_thr s.thr_info tid (fun u => { u with forced_idle := false })
      (fun _ => rfl) (fun _ => rfl) x

/-- C9: `sem_post` asserts the record exists and increments its
`pending_wakeups` uniformly — the named flag is never consulted; no
critical section ever creates a waiting link to a semaphore whose record
is named (a link to a named record can only have existed before the
step); and the blocked test never consults the pending count of a record
no thread links to: bumping it leaves every thread's blocked status
unchanged. -/
theorem C9_named_post_and_no_named_links :
    (∀ (s : LibIdleState) (a : Addr) (rec : SemaphoreInfo),
        libidle_find_sem_info s.sem_info a = some rec →
        sem_post a s = some { s with sem_info := bump_sem s.sem_info a 1 }
          ∧ libidle_find_sem_info (bump_sem s.sem_info a 1) a
              = some { rec with pending_wakeups := rec.pending_wakeups + 1 })
  ∧ (∀ (s : LibIdleState) (a : Addr),
        libidle_find_sem_info s.sem_info a = none → sem_post a s = none)
  ∧ (∀ (op : Op) (s s' : LibIdleState) (tid : Tid) (a : Addr),
        applyOp op s = some s' → ws_of s' tid = some a → named_at s' a = true →
        ws_of s tid = some a)
  ∧ (∀ (sems : List SemaphoreInfo) (t : ThreadInfo) (a : Addr) (d : Int),
        t.waiting_semaphore ≠ some a →
        threadinfo_is_blocked (bump_sem sems a d) t = threadinfo_is_blocked sems t) := by
  refine ⟨?_, ?_, ?_, ?_⟩
  · intro s a rec h
    constructor
    · unfold sem_post
      rw [h]
    · unfold bump_sem
      rw [find_sem_set_sem s.sem_info a
        (fun si => { si with pending_wakeups := si.pending_wakeups + 1 }) (fun _ => rfl) a,
        if_pos rfl, h]
      rfl
  · intro s a h
    unfold sem_post
    rw [h]
  · intro op s s' tid a hop h2 h3
    cases op with
    | enterBlocked tidp =>
      have hw := entering_blocked_op_ws hop
      rw [hw.2 tid] at h2
      exact h2
    | leaveBlocked tidp =>
      have hw := left_blocked_op_ws hop
      rw [hw.2 tid] at h2
      exact h2
    | enableForcedIdle tidp =>
      have hw := enable_forced_idle_ws hop
      rw [hw.2 tid] at h2
      exact h2
    | disableForcedIdle tidp =>
      have hw := disable_forced_idle_ws hop
      rw [hw.2 tid] at h2
      exact h2
    | threadCreate tidp =>
      simp only [applyOp] at hop
      injection hop with hop
      subst hop
      unfold ws_of at h2 ⊢
      unfold libidle_register_thread at h2
      dsimp only at h2
      rw [find_thr_append] at h2
      cases hft : libidle_find_thr_info s.thr_info tid with
      | some u =>
        rw [hft] at h2
        exact h2
      | none =>
        exfalso
        rw [hft] at h2
        unfold libidle_find_thr_info at h2
        by_cases he : (tidp == tid) = true <;>
          simp [List.find?_cons, List.find?_nil, he] at h2
    | semOpen handle =>
      simp only [applyOp, sem_open] at hop
      injection hop with hop
      subst hop
      exact h2
    | semInit sem value =>
      simp only [applyOp] at hop
      injection hop with hop
      subst hop
      exact h2
    | semDestroy sem =>
      simp only [applyOp, sem_destroy] at hop
      injection hop with hop
      subst hop
      exact h2
    | semPost sem =>
      simp only [applyOp] at hop
      unfold sem_post at hop
      cases hf : libidle_find_sem_info s.sem_info sem with
      | none => rw [hf] at hop; exact absurd hop (by simp)
      | some si =>
        rw [hf] at hop
        dsimp only at hop
        injection hop with hop
        subst hop
        exact h2
    | semWaitEnter tidp sem =>
      simp only [applyOp] at hop
      unfold libidle_sem_wait_pre at hop
      cases hf : libidle_find_sem_info s.sem_info sem with
      | none => rw [hf] at hop; exact absurd hop (by simp)
      | some sem_rec =>
        rw [hf] at hop
        dsimp only at hop
        cases hth : libidle_find_thr_info s.thr_info tidp with
        | none => rw [hth] at hop; exact absurd hop (by simp)
        | some u =>
          rw [hth] at hop
          dsimp only at hop
          by_cases hn : sem_rec.named_semaphore = true
          · rw [if_pos hn] at hop
            injection hop with hop
            subst hop
            exact h2
          · rw [if_neg hn] at hop
            have hop2 : entering_blocked_op tidp
                { s with thr_info := (set_thr s.thr_info tidp
                    (fun v => { v with waiting_semaphore := some sem })) }
                = some s' := hop
            have hw := entering_blocked_op_ws hop2
            rw [hw.2 tid] at h2
            unfold ws_of at h2 ⊢
            dsimp only at h2
            rw [find_thr_set_thr s.thr_info tidp
              (fun v => { v with waiting_semaphore := some sem }) (fun _ => rfl) tid] at h2
            by_cases he : tid = tidp
            · exfalso
              rw [if_pos he, hth] at h2
              have ha : sem = a := by
                simpa using h2
              subst ha
              unfold named_at at h3
              rw [hw.1] at h3
              dsimp only at h3
              rw [hf] at h3
              exact hn h3
            · rw [if_neg he] at h2
              exact h2
    | semWaitReturn tidp sem named =>
      simp only [applyOp] at hop
      unfold libidle_sem_wait_post at hop
      by_cases hn : named = true
      · rw [if_pos hn] at hop
        injection hop with hop
        subst hop
        exact h2
      · rw [if_neg hn] at hop
        cases hl : left_blocked_op tidp s with
        | none => rw [hl] at hop; exact absurd hop (by simp)
        | some s1 =>
          rw [hl] at hop
          dsimp only at hop
          injection hop with hop
          subst hop
          have hws1 := left_blocked_op_ws hl
          unfold ws_of at h2 ⊢
          dsimp only at h2
          rw [find_thr_set_thr s1.thr_info tidp
            (fun v => { v with waiting_semaphore := none }) (fun _ => rfl) tid] at h2
          by_cases he : tid = tidp
          · exfalso
            rw [if_pos he] at h2
            cases hft : libidle_find_thr_info s1.thr_info tidp with
            | none => rw [hft] at h2; simp at h2
            | some u => rw [hft] at h2; simp at h2
          · rw [if_neg he] at h2
            have h2b : ws_of s1 tid = some a := h2
            rw [hws1.2 tid] at h2b
            exact h2b
    | condInit cond nI nO =>
      simp only [applyOp] at hop
      injection hop with hop
      subst hop
      exact h2
    | condDestroy cond =>
      simp only [applyOp] at hop
      unfold pthread_cond_destroy_232 at hop
      cases hf : libidle_find_cond_info s.cond_info cond with
      | none =>
        rw [hf] at hop
        dsimp only at hop
        injection hop with hop
        subst hop
        exact h2
      | some ci =>
        rw [hf] at hop
        dsimp only at hop
        by_cases hz : ci.sleeping_threads = 0
        · rw [if_pos hz] at hop
          dsimp only at hop
          injection hop with hop
          subst hop
          exact h2
        · rw [if_neg hz] at hop
          exact absurd hop (by simp)
    | condWaitEnter cond =>
      simp only [applyOp] at hop
      unfold pthread_cond_wait_enter at hop
      cases hf : libidle_find_cond_info s.cond_info cond with
      | none => rw [hf] at hop; exact absurd hop (by simp)
      | some ci =>
        rw [hf] at hop
        dsimp only at hop
        injection hop with hop
        subst hop
        exact h2
    | condBroadcastRotate tidp cond nI nO =>
      simp only [applyOp] at hop
      unfold pthread_cond_broadcast_rotate at hop
      cases hf : libidle_find_cond_info s.cond_info cond with
      | none => rw [hf] at hop; exact absurd hop (by simp)
      | some ci =>
        rw [hf] at hop
        dsimp only at hop
        cases hth : libidle_find_thr_info s.thr_info tidp with
        | none => rw [hth] at hop; exact absurd hop (by simp)
        | some u =>
          rw [hth] at hop
          dsimp only at hop
          injection hop with hop
          subst hop
          exact h2
  · intro sems t a d hne
    unfold threadinfo_is_blocked
    by_cases hfi : t.forced_idle = true
    · rw [if_pos hfi, if_pos hfi]
    · rw [if_neg hfi, if_neg hfi]
      by_cases hsl : (!t.sleeping) = true
      · rw [if_pos hsl, if_pos hsl]
      · rw [if_neg hsl, if_neg hsl]
        cases hw : t.waiting_semaphore with
        | none => rfl
        | some w =>
          dsimp only
          have hwa : w ≠ a := fun he => hne (he ▸ hw)
          unfold bump_sem
          rw [find_sem_set_sem sems a
            (fun si => { si with pending_wakeups := si.pending_wakeups + d }) (fun _ => rfl) w,
            if_neg hwa]

theorem C9_named_post_and_no_named_links_witness :
    sem_post 9 named_link_state
        = some { named_link_state with sem_info := bump_sem named_link_state.sem_info 9 1 }
  ∧ libidle_find_sem_info (bump_sem named_link_state.sem_info 9 1) 9 = some ⟨9, true, 1⟩
  ∧ sem_post 3 (libidle_init 2) = none
  ∧ ws_of named_link_state 1 = some 9
  ∧ threadinfo_is_blocked (bump_sem [⟨9, true, 5⟩] 9 1) ⟨1, true, false, none⟩
      = threadinfo_is_blocked [⟨9, true, 5⟩] ⟨1, true, false, none⟩ :=
  ⟨(C9_named_post_and_no_named_links.1 named_link_state 9 ⟨9, true, 0⟩ (by decide)).1,
   (C9_named_post_and_no_named_links.1 named_link_state 9 ⟨9, true, 0⟩ (by decide)).2,
   C9_named_post_and_no_named_links.2.1 (libidle_init 2) 3 (by decide),
   C9_named_post_and_no_named_links.2.2.1 (Op.semPost 9) named_link_state
     { named_link_state with sem_info := bump_sem named_link_state.sem_info 9 1 } 1 9
     (by decide) (by decide) (by decide),
   C9_named_post_and_no_named_links.2.2.2 [⟨9, true, 5⟩] ⟨1, true, false, none⟩ 9 1
     (by decide)⟩
